import Mathlib

/-!
Shallow embedding of the gas accounting module (`src/core/src/ledger/gas.rs`),
the wrapper-transaction gas limit (`src/core/src/types/transaction/wrapper.rs`)
and the multitoken native validity predicate
(`src/crates/namada/src/ledger/native_vp/multitoken.rs`).

Machine integers are modelled as `Nat` with explicit bounds: a `u64` value is a
natural number below `2 ^ 64`, a checked operation returns `Option Nat`, and an
unchecked (wrapping) operation reduces modulo `2 ^ 64`, following release-build
Rust semantics.  Fallible Rust functions returning `Result` are modelled with
an explicit error component.
-/

/-- `2 ^ 64`, the modulus of Rust's `u64` arithmetic. -/
def U64_MOD : Nat := 2 ^ 64

/-- `u64::checked_add`: the sum when it fits in 64 bits, `none` otherwise. -/
def checked_add_u64 (a b : Nat) : Option Nat :=
  if a + b < U64_MOD then some (a + b) else none

/-- The error enumeration of `gas.rs` (`enum Error`). -/
inductive GasError where
  | TransactionGasExceededError
  | BlockGasExceeded
  | GasOverflow
  | ConversionError
deriving DecidableEq, Repr

/-- `PARALLEL_GAS_DIVIDER` in `gas.rs`. -/
def PARALLEL_GAS_DIVIDER : Nat := 10

/-- `struct TxGasMeter` in `gas.rs`: the transaction-level meter. -/
structure TxGasMeter where
  tx_gas_limit : Nat
  transaction_gas : Nat
deriving DecidableEq, Repr

/-- `struct VpGasMeter` in `gas.rs`: the per-predicate meter. -/
structure VpGasMeter where
  tx_gas_limit : Nat
  initial_gas : Nat
  current_gas : Nat
deriving DecidableEq, Repr

/-- `TxGasMeter::consume` (gas.rs:107-118).  The returned pair is the meter
after the call together with the error, if any: on overflow the meter is
unchanged, otherwise `transaction_gas` is updated before the limit check. -/
def TxGasMeter.consume (m : TxGasMeter) (gas : Nat) : TxGasMeter × Option GasError :=
  match checked_add_u64 m.transaction_gas gas with
  | none => (m, some GasError.GasOverflow)
  | some t =>
      if t > m.tx_gas_limit then
        ({ m with transaction_gas := t }, some GasError.TransactionGasExceededError)
      else
        ({ m with transaction_gas := t }, none)

/-- `VpGasMeter::consume` (gas.rs:168-184).  `current_gas` is updated by the
first checked addition; the second checked addition (`initial_gas +
current_gas`) and the limit check run on the already-updated meter. -/
def VpGasMeter.consume (m : VpGasMeter) (gas : Nat) : VpGasMeter × Option GasError :=
  match checked_add_u64 m.current_gas gas with
  | none => (m, some GasError.GasOverflow)
  | some c =>
      let m1 : VpGasMeter := { m with current_gas := c }
      match checked_add_u64 m.initial_gas c with
      | none => (m1, some GasError.GasOverflow)
      | some total =>
          if total > m.tx_gas_limit then (m1, some GasError.TransactionGasExceededError)
          else (m1, none)

/-- `struct VpsGas` in `gas.rs`: the parallel-VP gas aggregator. -/
structure VpsGas where
  max : Option Nat
  rest : List Nat
deriving DecidableEq, Repr

/-- `VpsGas::default()`: empty aggregator. -/
def VpsGas.empty : VpsGas := ⟨none, []⟩

/-- `VpsGas::get_current_gas` (gas.rs:253-259).  The Rust code computes
`self.rest.iter().sum::<u64>()` with plain (unchecked) `u64` addition, which in
release builds wraps; a fold of wrapping additions over the list equals the
mathematical sum reduced modulo `2 ^ 64`.  Only the final addition of the
maximum uses `checked_add` (`none` models `Err(GasOverflow)`). -/
def VpsGas.get_current_gas (v : VpsGas) : Option Nat :=
  let parallel_gas := (v.rest.sum % U64_MOD) / PARALLEL_GAS_DIVIDER
  checked_add_u64 (v.max.getD 0) parallel_gas

/-- `VpsGas::check_limit` (gas.rs:241-250), parametrised by the two values the
`impl GasMetering` argument supplies: `get_tx_gas()` and `get_gas_limit()`. -/
def VpsGas.check_limit (v : VpsGas) (tx_gas gas_limit : Nat) : Option GasError :=
  match v.get_current_gas with
  | none => some GasError.GasOverflow
  | some cur =>
      match checked_add_u64 tx_gas cur with
      | none => some GasError.GasOverflow
      | some total =>
          if total > gas_limit then some GasError.TransactionGasExceededError else none

/-- `VpsGas::set` (gas.rs:209-214): records `current_gas` of the consumed VP
meter as `max`, then re-validates.  For the meter argument, `get_tx_gas()` is
`initial_gas` and `get_gas_limit()` is `tx_gas_limit`. -/
def VpsGas.set (v : VpsGas) (m : VpGasMeter) : VpsGas × Option GasError :=
  let v1 : VpsGas := ⟨some m.current_gas, v.rest⟩
  (v1, v1.check_limit m.initial_gas m.tx_gas_limit)

/-- `VpsGas::merge` (gas.rs:217-239): keeps the larger `max`, pushes the
smaller onto `rest`, appends the other aggregator's `rest`, then re-validates
against the transaction meter. -/
def VpsGas.merge (v other : VpsGas) (tx : TxGasMeter) : VpsGas × Option GasError :=
  let v1 : VpsGas :=
    match v.max, other.max with
    | none, some m => ⟨some m, v.rest⟩
    | some a, some b =>
        if a < b then ⟨some b, v.rest ++ [a]⟩ else ⟨some a, v.rest ++ [b]⟩
    | _, _ => v
  let v2 : VpsGas := ⟨v1.max, v1.rest ++ other.rest⟩
  (v2, v2.check_limit tx.transaction_gas tx.tx_gas_limit)

/-- `TxGasMeter::add_vps_gas` (gas.rs:153-159): charges the aggregator's
billed total to the transaction meter. -/
def TxGasMeter.add_vps_gas (m : TxGasMeter) (v : VpsGas) : TxGasMeter × Option GasError :=
  match v.get_current_gas with
  | none => (m, some GasError.GasOverflow)
  | some g => m.consume g

/-- The recorded usages held by an aggregator, as a multiset (the `max`
together with everything in `rest`). -/
def VpsGas.entries (v : VpsGas) : Multiset Nat :=
  match v.max with
  | some m => (m :: v.rest : List Nat)
  | none => (v.rest : List Nat)

/-- The billed-total computation as the specification describes it: every
arithmetic step, including the summation over `rest`, either yields the exact
mathematical result or fails with `GasOverflow`.  Written for comparison with
`VpsGas.get_current_gas`, which is translated from the code. -/
def VpsGas.get_current_gas_exact (v : VpsGas) : Option Nat :=
  if U64_MOD ≤ v.rest.sum then none
  else checked_add_u64 (v.max.getD 0) (v.rest.sum / PARALLEL_GAS_DIVIDER)

/-- A binary combination tree of predicate gas usages: each leaf is recorded
with `VpsGas::set` into a fresh aggregator, each node merges the two
sub-results with `VpsGas::merge`.  Quantifying over trees covers every
association order and argument order of pairwise merging. -/
inductive GasTree where
  | leaf (u : Nat)
  | node (l r : GasTree)

/-- The recorded usages of a tree, left to right. -/
def GasTree.values : GasTree → List Nat
  | .leaf u => [u]
  | .node l r => l.values ++ r.values

/-- Run the aggregation described by the tree: `set` at each leaf (with the
given VP-meter limit and initial gas), `merge` at each node, keeping the
aggregator state (the error component is dropped; set/merge update state
before checking the limit). -/
def GasTree.eval (lim ig : Nat) (tx : TxGasMeter) : GasTree → VpsGas
  | .leaf u => (VpsGas.empty.set ⟨lim, ig, u⟩).1
  | .node l r => ((GasTree.eval lim ig tx l).merge (GasTree.eval lim ig tx r) tx).1

/-- Largest element of a list of naturals (0 for the empty list). -/
def maxList (l : List Nat) : Nat := l.foldr Nat.max 0

/-! ## Wrapper transaction gas limit (`wrapper.rs`) -/

/-- `GAS_LIMIT_RESOLUTION` in `wrapper.rs`. -/
def GAS_LIMIT_RESOLUTION : Nat := 1000000

/-- `struct GasLimit` in `wrapper.rs`: stores only the multiplier. -/
structure GasLimit where
  multiplier : Nat
deriving DecidableEq, Repr

/-- `impl From<u64> for GasLimit` (wrapper.rs:115-129): round the requested
amount up to the next multiple of the resolution. -/
def GasLimit.ofAmount (amount : Nat) : GasLimit :=
  if GAS_LIMIT_RESOLUTION * (amount / GAS_LIMIT_RESOLUTION) < amount then
    ⟨amount / GAS_LIMIT_RESOLUTION + 1⟩
  else
    ⟨amount / GAS_LIMIT_RESOLUTION⟩

/-- `impl From<&GasLimit> for u64` (wrapper.rs:132-136): the granted limit as a
raw number.  `limit.multiplier * GAS_LIMIT_RESOLUTION` is an unchecked `u64`
multiplication, hence the reduction modulo `2 ^ 64` (release-build wrapping). -/
def GasLimit.toU64 (l : GasLimit) : Nat :=
  l.multiplier * GAS_LIMIT_RESOLUTION % U64_MOD

/-- `GasLimit::refund_amount` (wrapper.rs:96-111).  The guard
`used_gas < (u64::from(self) - GAS_LIMIT_RESOLUTION)` subtracts with unchecked
`u64` arithmetic, which wraps around when the granted limit is below one
resolution unit; wrapping subtraction is modelled as addition of
`U64_MOD - GAS_LIMIT_RESOLUTION` modulo `U64_MOD`. -/
def GasLimit.refund_amount (l : GasLimit) (used_gas : Nat) : Nat :=
  if used_gas < (l.toU64 + (U64_MOD - GAS_LIMIT_RESOLUTION)) % U64_MOD then
    GAS_LIMIT_RESOLUTION
  else if l.toU64 ≤ used_gas then
    0
  else
    l.toU64 - used_gas

/-! ## Multitoken native validity predicate (`multitoken.rs`)

Token amounts (`namada_token::Amount`, a crate outside `src/`) are unsigned
256-bit integers with checked addition and subtraction; they are modelled as
naturals bounded by `AMOUNT_MAX`.  Storage keys are modelled by their
classification: the functions `is_any_token_balance_key`,
`is_any_minted_balance_key`, `is_any_minter_key` and
`is_any_token_parameter_key` (token storage-key helpers, outside `src/`)
partition the keys under the `#Multitoken` namespace into balance keys (with a
token and an owner), minted-supply keys, minter keys and token-parameter keys;
everything else under the namespace is unrecognized, and keys outside the
namespace fall through the classification.  `keys_changed` is a `BTreeSet`
iterated in ascending key order; it is modelled as the list of keys in
iteration order. -/

/-- Maximum value of a token `Amount` (256-bit unsigned). -/
def AMOUNT_MAX : Nat := 2 ^ 256 - 1

/-- `Amount::checked_add`. -/
def Amount.checked_add (a b : Nat) : Option Nat :=
  if a + b ≤ AMOUNT_MAX then some (a + b) else none

/-- `Amount::checked_sub`. -/
def Amount.checked_sub (a b : Nat) : Option Nat :=
  if b ≤ a then some (a - b) else none

/-- Addresses, as far as the multitoken predicate distinguishes them:
established (or any other ordinary) addresses, the internal IBC address, the
internal Multitoken address, IBC-originated token addresses
(`InternalAddress::IbcToken`), and all remaining internal addresses. -/
inductive Address where
  | established (n : Nat)
  | ibc
  | multitoken
  | ibcToken (n : Nat)
  | otherInternal (n : Nat)
deriving DecidableEq, Repr

/-- Storage keys by classification (see the section comment).  The `Nat`
argument of `otherMultitoken` and `outside` abstracts the remaining path
segments. -/
inductive Key where
  | balance (token owner : Address)
  | minted (token : Address)
  | minter (token : Address)
  | tokenParam (token : Address)
  | otherMultitoken (seg : Nat)
  | outside (seg : Nat)
deriving DecidableEq, Repr

/-- The storage context of a `validate_tx` run: `pre`/`post` are the amounts
read at balance and minted-supply keys (`read_pre`/`read_post` with
`unwrap_or_default`, so an absent key reads as 0), `postMinter` is the
post-state minter address recorded for a token (`read_post` at
`minter_key(token)`), and `validParam` is the result of
`is_valid_parameter(tx)`, which delegates to the governance crate's
`is_proposal_accepted` (outside `src/`) and is therefore kept abstract. -/
structure Ctx where
  pre : Key → Nat
  post : Key → Nat
  postMinter : Address → Option Address
  validParam : Bool

/-- `MultitokenVp::is_valid_minter` (multitoken.rs:178-203). -/
def is_valid_minter (ctx : Ctx) (token : Address) (verifiers : List Address) : Bool :=
  match token with
  | Address.ibcToken _ =>
      match ctx.postMinter token with
      | some minter =>
          if minter = Address.ibc then decide (minter ∈ verifiers) else false
      | none => false
  | _ => false

/-- The four accumulator maps of `validate_tx` (absent entries read as zero)
together with the list of tokens that received an entry in any map. -/
structure Maps where
  incChanges : Address → Nat
  decChanges : Address → Nat
  incMints : Address → Nat
  decMints : Address → Nat
  tokens : List Address

/-- The empty accumulators. -/
def Maps.empty : Maps := ⟨fun _ => 0, fun _ => 0, fun _ => 0, fun _ => 0, []⟩

/-- Point update of an accumulator map. -/
def updMap (f : Address → Nat) (t : Address) (v : Nat) : Address → Nat :=
  fun x => if x = t then v else f x

/-- The balance-key arm of the scan (multitoken.rs:61-92): read pre/post, add
`post - pre` to `inc_changes[token]` when `post >= pre`, else `pre - post` to
`dec_changes[token]`, both overflow-checked (`none` models the propagated
overflow error).  The `pre - post` case cannot underflow, matching the
`expect` in the source. -/
def balanceStep (ctx : Ctx) (acc : Maps) (k : Key) (token : Address) : Option Maps :=
  match Amount.checked_sub (ctx.post k) (ctx.pre k) with
  | some diff =>
      match Amount.checked_add (acc.incChanges token) diff with
      | some v =>
          some { acc with incChanges := updMap acc.incChanges token v,
                          tokens := token :: acc.tokens }
      | none => none
  | none =>
      match Amount.checked_add (acc.decChanges token) (ctx.pre k - ctx.post k) with
      | some v =>
          some { acc with decChanges := updMap acc.decChanges token v,
                          tokens := token :: acc.tokens }
      | none => none

/-- The minted-supply-key arm of the scan (multitoken.rs:93-120): the same pre/post
delta logic into `inc_mints` / `dec_mints`. -/
def mintStep (ctx : Ctx) (acc : Maps) (k : Key) (token : Address) : Option Maps :=
  match Amount.checked_sub (ctx.post k) (ctx.pre k) with
  | some diff =>
      match Amount.checked_add (acc.incMints token) diff with
      | some v =>
          some { acc with incMints := updMap acc.incMints token v,
                          tokens := token :: acc.tokens }
      | none => none
  | none =>
      match Amount.checked_add (acc.decMints token) (ctx.pre k - ctx.post k) with
      | some v =>
          some { acc with decMints := updMap acc.decMints token v,
                          tokens := token :: acc.tokens }
      | none => none

/-- Outcome of the key scan: completed with the final accumulators, returned
early with a boolean (`Ok(b)`), or failed with the overflow error. -/
inductive ScanOut where
  | done (m : Maps)
  | early (b : Bool)
  | fail

/-- Whether the scan completed without an early return or error. -/
def ScanOut.completed : ScanOut → Bool
  | .done _ => true
  | _ => false

/-- Whether the scan failed with an error. -/
def ScanOut.failed : ScanOut → Bool
  | .fail => true
  | _ => false

/-- The `for key in keys_changed` loop of `validate_tx` (multitoken.rs:60-140),
with its early returns: a minted-supply key additionally requires
`is_valid_minter` (after accumulating the delta), a minter key requires
`is_valid_minter`, a token-parameter key short-circuits the whole scan with
the governance check's result, an unrecognized key under the `#Multitoken`
namespace short-circuits with `false`, and a key outside the namespace is
skipped. -/
def scan (ctx : Ctx) (vs : List Address) : List Key → Maps → ScanOut
  | [], acc => ScanOut.done acc
  | k :: ks, acc =>
    match k with
    | Key.balance token _ =>
        match balanceStep ctx acc k token with
        | some acc2 => scan ctx vs ks acc2
        | none => ScanOut.fail
    | Key.minted token =>
        match mintStep ctx acc k token with
        | some acc2 =>
            if is_valid_minter ctx token vs then scan ctx vs ks acc2
            else ScanOut.early false
        | none => ScanOut.fail
    | Key.minter token =>
        if is_valid_minter ctx token vs then scan ctx vs ks acc
        else ScanOut.early false
    | Key.tokenParam _ => ScanOut.early ctx.validParam
    | Key.otherMultitoken _ => ScanOut.early false
    | Key.outside _ => scan ctx vs ks acc

/-- The per-token conservation check (multitoken.rs:148-167), as a function of
the four accumulated values: the three-way branch comparing clamped
differences via `checked_sub` on `Option`s, exactly as the source writes it. -/
def consCheck (ic dc im dm : Nat) : Bool :=
  if dc ≤ ic ∧ dm ≤ im then
    decide (Amount.checked_sub ic dc = Amount.checked_sub im dm)
  else if (ic < dc ∧ dm ≤ im) ∨ (dc ≤ ic ∧ im < dm) then
    false
  else
    decide (Amount.checked_sub dc ic = Amount.checked_sub dm im)

/-- The conservation check of one token against the final accumulators. -/
def conservationCheck (m : Maps) (t : Address) : Bool :=
  consCheck (m.incChanges t) (m.decChanges t) (m.incMints t) (m.decMints t)

/-- `MultitokenVp::validate_tx` (multitoken.rs:50-168): scan all changed keys,
then require the conservation check for every token appearing in any of the
four maps.  `Except.error` models `Err(_)` (the propagated overflow error). -/
inductive MtError where
  | overflow
deriving DecidableEq, Repr

/-- See `scan` and `conservationCheck`. -/
def validate_tx (ctx : Ctx) (keys : List Key) (vs : List Address) : Except MtError Bool :=
  match scan ctx vs keys Maps.empty with
  | ScanOut.done m => Except.ok (m.tokens.all fun t => conservationCheck m t)
  | ScanOut.early b => Except.ok b
  | ScanOut.fail => Except.error MtError.overflow

/-- Contribution of one key to `inc_changes[t]`, per the claim's phrasing:
a balance key of token `t` contributes `post - pre` when `post >= pre`. -/
def balInc (ctx : Ctx) (k : Key) (t : Address) : Nat :=
  match k with
  | Key.balance token _ =>
      if token = t ∧ ctx.pre k ≤ ctx.post k then ctx.post k - ctx.pre k else 0
  | _ => 0

/-- Contribution of one key to `dec_changes[t]`: `pre - post` when `post < pre`. -/
def balDec (ctx : Ctx) (k : Key) (t : Address) : Nat :=
  match k with
  | Key.balance token _ =>
      if token = t ∧ ctx.post k < ctx.pre k then ctx.pre k - ctx.post k else 0
  | _ => 0

/-- Contribution of one key to `inc_mints[t]`. -/
def mintInc (ctx : Ctx) (k : Key) (t : Address) : Nat :=
  match k with
  | Key.minted token =>
      if token = t ∧ ctx.pre k ≤ ctx.post k then ctx.post k - ctx.pre k else 0
  | _ => 0

/-- Contribution of one key to `dec_mints[t]`. -/
def mintDec (ctx : Ctx) (k : Key) (t : Address) : Nat :=
  match k with
  | Key.minted token =>
      if token = t ∧ ctx.post k < ctx.pre k then ctx.pre k - ctx.post k else 0
  | _ => 0

/-- Total increase of token `t`'s balances over the changed keys. -/
def incChangeSum (ctx : Ctx) (ks : List Key) (t : Address) : Nat :=
  (ks.map fun k => balInc ctx k t).sum

/-- Total decrease of token `t`'s balances over the changed keys. -/
def decChangeSum (ctx : Ctx) (ks : List Key) (t : Address) : Nat :=
  (ks.map fun k => balDec ctx k t).sum

/-- Total increase of token `t`'s minted supply over the changed keys. -/
def incMintSum (ctx : Ctx) (ks : List Key) (t : Address) : Nat :=
  (ks.map fun k => mintInc ctx k t).sum

/-- Total decrease of token `t`'s minted supply over the changed keys. -/
def decMintSum (ctx : Ctx) (ks : List Key) (t : Address) : Nat :=
  (ks.map fun k => mintDec ctx k t).sum

/-- Tokens touched by a balance or minted-supply key (the union of the four
maps' key sets, as a list). -/
def Key.touchedToken : Key → Option Address
  | Key.balance t _ => some t
  | Key.minted t => some t
  | _ => none

/-- All touched tokens of a key list. -/
def tokensTouched (ks : List Key) : List Address := ks.filterMap Key.touchedToken

/-- The claim's per-token conservation condition, stated directly on the
summed deltas with truncated subtraction: both sides increase-dominant compare
the differences, mixed dominance fails, both decrease-dominant compare the
differences the other way. -/
def tokenCheckSpec (ctx : Ctx) (ks : List Key) (t : Address) : Bool :=
  let ic := incChangeSum ctx ks t
  let dc := decChangeSum ctx ks t
  let im := incMintSum ctx ks t
  let dm := decMintSum ctx ks t
  if dc ≤ ic ∧ dm ≤ im then decide (ic - dc = im - dm)
  else if (ic < dc ∧ dm ≤ im) ∨ (dc ≤ ic ∧ im < dm) then false
  else decide (dc - ic = dm - im)

/-! ## Theorems -/

/-- C2: for both meter variants, `consume` fails with
`TransactionGasExceededError` exactly when the overflow-checked additions
succeed but the new total (for the predicate variant, `initial_gas +
current_gas`) strictly exceeds `gas_limit`; in that case the running total is
still updated with the full attempted charge, while an overflow failure of the
running-total addition leaves the meter unchanged. -/
theorem gasMeter_charge_then_check (m : TxGasMeter) (g : Nat) (vm : VpGasMeter) (g2 : Nat) :
    ((m.consume g).2 = some GasError.TransactionGasExceededError ↔
      m.transaction_gas + g < U64_MOD ∧ m.tx_gas_limit < m.transaction_gas + g) ∧
    ((m.consume g).2 = some GasError.TransactionGasExceededError →
      (m.consume g).1.transaction_gas = m.transaction_gas + g) ∧
    ((m.consume g).2 = some GasError.GasOverflow → (m.consume g).1 = m) ∧
    ((vm.consume g2).2 = some GasError.TransactionGasExceededError ↔
      vm.current_gas + g2 < U64_MOD ∧ vm.initial_gas + (vm.current_gas + g2) < U64_MOD ∧
        vm.tx_gas_limit < vm.initial_gas + (vm.current_gas + g2)) ∧
    ((vm.consume g2).2 = some GasError.TransactionGasExceededError →
      (vm.consume g2).1.current_gas = vm.current_gas + g2) ∧
    (U64_MOD ≤ vm.current_gas + g2 → (vm.consume g2).1 = vm) := by
  unfold TxGasMeter.consume VpGasMeter.consume checked_add_u64
  refine ⟨?_, ?_, ?_, ?_, ?_, ?_⟩ <;> (repeat' split) <;> simp_all <;> omega

/-- C2 witness: a concrete limit-exceeded charge updates both meters' running
totals to the full attempted amount. -/
theorem gasMeter_charge_then_check_witness :
    (TxGasMeter.consume ⟨10, 5⟩ 7).1.transaction_gas = 12 ∧
    (VpGasMeter.consume ⟨10, 3, 2⟩ 7).1.current_gas = 9 :=
  ⟨(gasMeter_charge_then_check ⟨10, 5⟩ 7 ⟨10, 3, 2⟩ 7).2.1 (by decide),
   (gasMeter_charge_then_check ⟨10, 5⟩ 7 ⟨10, 3, 2⟩ 7).2.2.2.2.1 (by decide)⟩

/-- C4: for both meter variants, if adding the charged amount to the running
total (or, for the predicate variant, adding `initial_gas` to the updated
`current_gas`) overflows 64 bits, `consume` fails with `GasOverflow`,
regardless of the value of the gas limit. -/
theorem gasMeter_overflow_error (m : TxGasMeter) (g : Nat) (vm : VpGasMeter) (g2 : Nat) :
    (U64_MOD ≤ m.transaction_gas + g → (m.consume g).2 = some GasError.GasOverflow) ∧
    (U64_MOD ≤ vm.current_gas + g2 ∨
        (vm.current_gas + g2 < U64_MOD ∧ U64_MOD ≤ vm.initial_gas + (vm.current_gas + g2)) →
      (vm.consume g2).2 = some GasError.GasOverflow) := by
  unfold TxGasMeter.consume VpGasMeter.consume checked_add_u64
  refine ⟨?_, ?_⟩ <;> (repeat' split) <;> simp_all <;> omega

/-- C4 witness: concrete overflowing charges (one on the running total itself,
one on `initial_gas + current_gas`) fail with `GasOverflow` even though the
limit is 0. -/
theorem gasMeter_overflow_error_witness :
    (TxGasMeter.consume ⟨0, U64_MOD - 1⟩ 1).2 = some GasError.GasOverflow ∧
    (VpGasMeter.consume ⟨0, U64_MOD - 1, 0⟩ 1).2 = some GasError.GasOverflow :=
  ⟨(gasMeter_overflow_error ⟨0, U64_MOD - 1⟩ 1 ⟨0, U64_MOD - 1, 0⟩ 1).1 (by decide),
   (gasMeter_overflow_error ⟨0, U64_MOD - 1⟩ 1 ⟨0, U64_MOD - 1, 0⟩ 1).2 (by decide)⟩

/-- A successful `TxGasMeter::consume` in explicit form. -/
theorem tx_consume_ok (m : TxGasMeter) (g : Nat) (h1 : m.transaction_gas + g < U64_MOD)
    (h2 : m.transaction_gas + g ≤ m.tx_gas_limit) :
    m.consume g = (⟨m.tx_gas_limit, m.transaction_gas + g⟩, none) := by
  unfold TxGasMeter.consume checked_add_u64
  (repeat' split) <;> simp_all
  omega

/-- A successful `VpGasMeter::consume` in explicit form. -/
theorem vp_consume_ok (m : VpGasMeter) (g : Nat) (h1 : m.current_gas + g < U64_MOD)
    (h2 : m.initial_gas + (m.current_gas + g) < U64_MOD)
    (h3 : m.initial_gas + (m.current_gas + g) ≤ m.tx_gas_limit) :
    m.consume g = (⟨m.tx_gas_limit, m.initial_gas, m.current_gas + g⟩, none) := by
  unfold VpGasMeter.consume checked_add_u64
  (repeat' split) <;> simp_all <;> omega

/-- C7: for both meter variants, when the combined charge stays within the
(64-bit) gas limit, charging `g1` then `g2` equals charging `g1 + g2` once:
same final meter and same (successful) result. -/
theorem gasMeter_consume_additive (m : TxGasMeter) (vm : VpGasMeter) (g1 g2 : Nat) :
    (m.tx_gas_limit < U64_MOD → m.transaction_gas + g1 + g2 ≤ m.tx_gas_limit →
      ((m.consume g1).1.consume g2) = m.consume (g1 + g2)) ∧
    (vm.tx_gas_limit < U64_MOD → vm.initial_gas + vm.current_gas + g1 + g2 ≤ vm.tx_gas_limit →
      ((vm.consume g1).1.consume g2) = vm.consume (g1 + g2)) := by
  constructor
  · intro h1 h2
    rw [tx_consume_ok m g1 (by omega) (by omega),
        tx_consume_ok m (g1 + g2) (by omega) (by omega)]
    rw [show ((⟨m.tx_gas_limit, m.transaction_gas + g1⟩, (none : Option GasError)).1 : TxGasMeter)
          = ⟨m.tx_gas_limit, m.transaction_gas + g1⟩ from rfl]
    rw [tx_consume_ok ⟨m.tx_gas_limit, m.transaction_gas + g1⟩ g2 (by simp; omega) (by simp; omega)]
    simp [Nat.add_assoc]
  · intro h1 h2
    rw [vp_consume_ok vm g1 (by omega) (by omega) (by omega),
        vp_consume_ok vm (g1 + g2) (by omega) (by omega) (by omega)]
    rw [show ((⟨vm.tx_gas_limit, vm.initial_gas, vm.current_gas + g1⟩,
            (none : Option GasError)).1 : VpGasMeter)
          = ⟨vm.tx_gas_limit, vm.initial_gas, vm.current_gas + g1⟩ from rfl]
    rw [vp_consume_ok ⟨vm.tx_gas_limit, vm.initial_gas, vm.current_gas + g1⟩ g2
          (by simp; omega) (by simp; omega) (by simp; omega)]
    simp [Nat.add_assoc]

/-- C7 witness: charging 20 then 30 equals charging 50 once on concrete
meters. -/
theorem gasMeter_consume_additive_witness :
    TxGasMeter.consume (TxGasMeter.consume ⟨100, 10⟩ 20).1 30 = TxGasMeter.consume ⟨100, 10⟩ 50 ∧
    VpGasMeter.consume (VpGasMeter.consume ⟨100, 10, 5⟩ 20).1 30 = VpGasMeter.consume ⟨100, 10, 5⟩ 50 :=
  ⟨(gasMeter_consume_additive ⟨100, 10⟩ ⟨100, 10, 5⟩ 20 30).1 (by decide) (by decide),
   (gasMeter_consume_additive ⟨100, 10⟩ ⟨100, 10, 5⟩ 20 30).2 (by decide) (by decide)⟩

/-- `U64_MOD` as a literal, for `omega`. -/
theorem u64_mod_eq : U64_MOD = 18446744073709551616 := by norm_num [U64_MOD]

/-- `maxList` distributes over append as `Nat.max`. -/
theorem maxList_append (l1 l2 : List Nat) :
    maxList (l1 ++ l2) = Nat.max (maxList l1) (maxList l2) := by
  induction l1 with
  | nil => simp [maxList]
  | cons a t ih =>
      simp only [List.cons_append, maxList, List.foldr_cons] at *
      rw [ih]
      exact (Nat.max_assoc a _ _).symm

/-- Invariant of tree-shaped aggregation: after all the sets and merges the
aggregator holds the largest recorded usage as `max` and the remaining usages
(in some order) as `rest`. -/
theorem gasTree_eval_spec (lim ig : Nat) (tx : TxGasMeter) (t : GasTree) :
    ∃ r : List Nat, GasTree.eval lim ig tx t = ⟨some (maxList t.values), r⟩ ∧
      r.sum + maxList t.values = t.values.sum ∧ ∀ x ∈ r, x ≤ maxList t.values := by
  induction t with
  | leaf u =>
      refine ⟨[], ?_, by simp [GasTree.values, maxList], by simp⟩
      show (VpsGas.set VpsGas.empty ⟨lim, ig, u⟩).1 = _
      simp [VpsGas.set, VpsGas.empty, GasTree.values, maxList]
  | node l r ihl ihr =>
      obtain ⟨rl, hl, hsl, hbl⟩ := ihl
      obtain ⟨rr, hr, hsr, hbr⟩ := ihr
      by_cases hc : maxList l.values < maxList r.values
      · refine ⟨(rl ++ [maxList l.values]) ++ rr, ?_, ?_, ?_⟩
        · show ((GasTree.eval lim ig tx l).merge (GasTree.eval lim ig tx r) tx).1 = _
          rw [hl, hr]
          simp [VpsGas.merge, hc, GasTree.values, maxList_append,
            Nat.max_eq_right (Nat.le_of_lt hc)]
        · simp only [GasTree.values, maxList_append, List.sum_append, List.sum_cons,
            List.sum_nil, Nat.max_eq_right (Nat.le_of_lt hc)]
          omega
        · intro x hx
          simp only [GasTree.values, maxList_append, Nat.max_eq_right (Nat.le_of_lt hc)]
          simp only [List.mem_append, List.mem_singleton] at hx
          rcases hx with hx | hx
          · rcases hx with hx | hx
            · exact Nat.le_trans (hbl x hx) (Nat.le_of_lt hc)
            · exact Nat.le_of_lt (hx ▸ hc)
          · exact hbr x hx
      · refine ⟨(rl ++ [maxList r.values]) ++ rr, ?_, ?_, ?_⟩
        · show ((GasTree.eval lim ig tx l).merge (GasTree.eval lim ig tx r) tx).1 = _
          rw [hl, hr]
          simp [VpsGas.merge, hc, GasTree.values, maxList_append,
            Nat.max_eq_left (Nat.le_of_not_lt hc)]
        · simp only [GasTree.values, maxList_append, List.sum_append, List.sum_cons,
            List.sum_nil, Nat.max_eq_left (Nat.le_of_not_lt hc)]
          omega
        · intro x hx
          simp only [GasTree.values, maxList_append, Nat.max_eq_left (Nat.le_of_not_lt hc)]
          simp only [List.mem_append, List.mem_singleton] at hx
          rcases hx with hx | hx
          · rcases hx with hx | hx
            · exact hbl x hx
            · exact hx ▸ Nat.le_of_not_lt hc
          · exact Nat.le_trans (hbr x hx) (Nat.le_of_not_lt hc)

/-- C1: for any non-empty collection of predicate usages, each recorded with
`VpsGas::set` into a fresh aggregator and combined pairwise with
`VpsGas::merge` in any association and argument order (any `GasTree`), the
billed total returned by `VpsGas::get_current_gas` is
`max(u1..uN) + (sum(u1..uN) - max(u1..uN)) / 10` with truncating division —
assuming the total fits in 64 bits; in particular it does not depend on the
merge order. -/
theorem vpsGas_billed_total_order_independent (t : GasTree) (lim ig : Nat) (tx : TxGasMeter)
    (h : t.values.sum < U64_MOD) :
    (GasTree.eval lim ig tx t).get_current_gas =
      some (maxList t.values + (t.values.sum - maxList t.values) / PARALLEL_GAS_DIVIDER) := by
  obtain ⟨r, he, hs, _⟩ := gasTree_eval_spec lim ig tx t
  rw [he]
  unfold VpsGas.get_current_gas checked_add_u64
  have h1 : r.sum < U64_MOD := by omega
  have h3 : r.sum / PARALLEL_GAS_DIVIDER ≤ r.sum := Nat.div_le_self _ _
  simp only [Option.getD_some, Nat.mod_eq_of_lt h1]
  rw [if_pos (by omega)]
  have h4 : t.values.sum - maxList t.values = r.sum := by omega
  rw [h4]

/-- C1 witness: usages 25, 7, 3 merged as `25 ⬝ (7 ⬝ 3)` bill
`25 + (7 + 3) / 10 = 26`. -/
theorem vpsGas_billed_total_order_independent_witness :
    (GasTree.eval 1000 0 ⟨1000, 0⟩
        (GasTree.node (GasTree.leaf 25) (GasTree.node (GasTree.leaf 7) (GasTree.leaf 3)))).get_current_gas
      = some 26 :=
  vpsGas_billed_total_order_independent
    (GasTree.node (GasTree.leaf 25) (GasTree.node (GasTree.leaf 7) (GasTree.leaf 3)))
    1000 0 ⟨1000, 0⟩ (by decide)

/-- C10: `VpsGas::set` and `VpsGas::merge` record the new gas into the
aggregator before running the limit check, so on a limit-exceeded error the
returned aggregator already holds the newly recorded usage: after `set` the
state is exactly the recorded `current_gas` over the old `rest`, and after
`merge` the recorded usages are the union (as multisets) of both arguments'
usages. -/
theorem vpsGas_state_updated_before_limit_check (v : VpsGas) (m : VpGasMeter) (w x : VpsGas)
    (tx : TxGasMeter) :
    ((v.set m).2 = some GasError.TransactionGasExceededError →
      (v.set m).1 = ⟨some m.current_gas, v.rest⟩) ∧
    ((w.merge x tx).2 = some GasError.TransactionGasExceededError →
      ((w.merge x tx).1).entries = w.entries + x.entries) := by
  constructor
  · intro _
    rfl
  · intro _
    obtain ⟨wm, wr⟩ := w
    obtain ⟨xm, xr⟩ := x
    cases wm with
    | none =>
        cases xm with
        | none => simp [VpsGas.merge, VpsGas.entries]
        | some b =>
            simp only [VpsGas.merge, VpsGas.entries]
            rw [Multiset.coe_add, Multiset.coe_eq_coe]
            exact List.perm_middle.symm
    | some a =>
        cases xm with
        | none => simp [VpsGas.merge, VpsGas.entries]
        | some b =>
            by_cases hab : a < b
            · simp only [VpsGas.merge, VpsGas.entries, if_pos hab]
              rw [Multiset.coe_add, Multiset.coe_eq_coe]
              simp only [List.append_assoc, List.singleton_append, List.cons_append]
              exact (List.Perm.cons b List.perm_middle).trans
                ((List.Perm.swap a b (wr ++ xr)).trans
                  (List.Perm.cons a List.perm_middle.symm))
            · simp only [VpsGas.merge, VpsGas.entries, if_neg hab]
              rw [Multiset.coe_add, Multiset.coe_eq_coe]
              simp only [List.append_assoc, List.singleton_append, List.cons_append]
              exact List.Perm.refl _

/-- C10 witness: a `set` and a `merge` that both fail the limit check (limit 0)
still return the updated aggregator state. -/
theorem vpsGas_state_updated_before_limit_check_witness :
    (VpsGas.set ⟨none, []⟩ ⟨0, 0, 5⟩).1 = ⟨some 5, []⟩ ∧
    (VpsGas.merge ⟨some 5, []⟩ ⟨some 3, []⟩ ⟨0, 0⟩).1.entries =
      VpsGas.entries ⟨some 5, []⟩ + VpsGas.entries ⟨some 3, []⟩ :=
  ⟨(vpsGas_state_updated_before_limit_check ⟨none, []⟩ ⟨0, 0, 5⟩ ⟨some 5, []⟩ ⟨some 3, []⟩
      ⟨0, 0⟩).1 (by decide),
   (vpsGas_state_updated_before_limit_check ⟨none, []⟩ ⟨0, 0, 5⟩ ⟨some 5, []⟩ ⟨some 3, []⟩
      ⟨0, 0⟩).2 (by decide)⟩

/-- C5: evaluation of the code at the failing aggregator state
`max = Some(0), rest = [2^63, 2^63]` (reachable with a `u64::MAX` transaction
limit and three predicates of `2^63` gas each).  The summation over `rest`
wraps to 0, so `get_current_gas` silently returns `Ok(0)` — and
`add_vps_gas` then bills 0 gas — where the specified exact-or-`GasOverflow`
arithmetic (`VpsGas.get_current_gas_exact`) fails with `GasOverflow`. -/
theorem vpsGas_rest_sum_silently_wraps :
    VpsGas.get_current_gas ⟨some 0, [2 ^ 63, 2 ^ 63]⟩ = some 0 ∧
    VpsGas.get_current_gas_exact ⟨some 0, [2 ^ 63, 2 ^ 63]⟩ = none ∧
    TxGasMeter.add_vps_gas ⟨U64_MOD - 1, 0⟩ ⟨some 0, [2 ^ 63, 2 ^ 63]⟩ =
      (⟨U64_MOD - 1, 0⟩, none) := by
  decide

/-- C8 counterexample: converting the raw amount 0 yields the granted limit 0,
yet `refund_amount(0)` returns a full `GAS_LIMIT_RESOLUTION` instead of the 0
the claim requires for `used_gas >= granted limit` (the code's unchecked
`u64::from(self) - GAS_LIMIT_RESOLUTION` wraps around). -/
theorem gasLimit_refund_claim_cex :
    (GasLimit.ofAmount 0).toU64 = 0 ∧
    GasLimit.refund_amount (GasLimit.ofAmount 0) 0 = GAS_LIMIT_RESOLUTION ∧
    GAS_LIMIT_RESOLUTION ≠ 0 := by
  decide

/-- C8 (amended): when the rounded-up limit fits in 64 bits, the conversion
yields the smallest multiple of `GAS_LIMIT_RESOLUTION` that is at least the
requested amount; and for every `GasLimit` holding at least one resolution
unit (multiplier >= 1, product within 64 bits), the refund never exceeds one
resolution unit and is zero when usage meets or exceeds the granted limit. -/
theorem gasLimit_round_up_and_refund (amount used : Nat) (l : GasLimit) :
    (amount + GAS_LIMIT_RESOLUTION ≤ U64_MOD →
      ((GasLimit.ofAmount amount).toU64 % GAS_LIMIT_RESOLUTION = 0 ∧
       amount ≤ (GasLimit.ofAmount amount).toU64 ∧
       (GasLimit.ofAmount amount).toU64 < amount + GAS_LIMIT_RESOLUTION)) ∧
    (1 ≤ l.multiplier → l.multiplier * GAS_LIMIT_RESOLUTION < U64_MOD →
      (l.refund_amount used ≤ GAS_LIMIT_RESOLUTION ∧
       (l.toU64 ≤ used → l.refund_amount used = 0))) := by
  constructor
  · intro h
    rw [u64_mod_eq] at h
    unfold GasLimit.ofAmount GasLimit.toU64
    rw [u64_mod_eq]
    simp only [GAS_LIMIT_RESOLUTION] at h ⊢
    split
    next hc =>
      dsimp only
      have hX : (amount / 1000000 + 1) * 1000000 < 18446744073709551616 := by omega
      rw [Nat.mod_eq_of_lt hX]
      exact ⟨Nat.mul_mod_left _ _, by omega, by omega⟩
    next hc =>
      dsimp only
      have hX : amount / 1000000 * 1000000 < 18446744073709551616 := by omega
      rw [Nat.mod_eq_of_lt hX]
      exact ⟨Nat.mul_mod_left _ _, by omega, by omega⟩
  · intro h1 h2
    rw [u64_mod_eq] at h2
    unfold GasLimit.refund_amount GasLimit.toU64
    rw [u64_mod_eq]
    simp only [GAS_LIMIT_RESOLUTION] at h2 ⊢
    rw [Nat.mod_eq_of_lt h2]
    have hw : (l.multiplier * 1000000 + (18446744073709551616 - 1000000)) %
        18446744073709551616 = l.multiplier * 1000000 - 1000000 := by omega
    rw [hw]
    refine ⟨?_, fun h3 => ?_⟩ <;> (repeat' split) <;> omega

/-- C8 witness: requesting 1500000 grants 2000000 (the next multiple), and a
two-unit limit with 2500000 gas used refunds nothing. -/
theorem gasLimit_round_up_and_refund_witness :
    ((GasLimit.ofAmount 1500000).toU64 % GAS_LIMIT_RESOLUTION = 0 ∧
      1500000 ≤ (GasLimit.ofAmount 1500000).toU64 ∧
      (GasLimit.ofAmount 1500000).toU64 < 1500000 + GAS_LIMIT_RESOLUTION) ∧
    (GasLimit.refund_amount ⟨2⟩ 2500000 ≤ GAS_LIMIT_RESOLUTION ∧
      ((⟨2⟩ : GasLimit).toU64 ≤ 2500000 → GasLimit.refund_amount ⟨2⟩ 2500000 = 0)) :=
  ⟨(gasLimit_round_up_and_refund 1500000 2500000 ⟨2⟩).1 (by decide),
   (gasLimit_round_up_and_refund 1500000 2500000 ⟨2⟩).2 (by decide) (by decide)⟩

/-- Unfolding `incChangeSum` over a cons. -/
theorem incChangeSum_cons (ctx : Ctx) (k : Key) (ks : List Key) (t : Address) :
    incChangeSum ctx (k :: ks) t = balInc ctx k t + incChangeSum ctx ks t := by
  simp [incChangeSum]

/-- Unfolding `decChangeSum` over a cons. -/
theorem decChangeSum_cons (ctx : Ctx) (k : Key) (ks : List Key) (t : Address) :
    decChangeSum ctx (k :: ks) t = balDec ctx k t + decChangeSum ctx ks t := by
  simp [decChangeSum]

/-- Unfolding `incMintSum` over a cons. -/
theorem incMintSum_cons (ctx : Ctx) (k : Key) (ks : List Key) (t : Address) :
    incMintSum ctx (k :: ks) t = mintInc ctx k t + incMintSum ctx ks t := by
  simp [incMintSum]

/-- Unfolding `decMintSum` over a cons. -/
theorem decMintSum_cons (ctx : Ctx) (k : Key) (ks : List Key) (t : Address) :
    decMintSum ctx (k :: ks) t = mintDec ctx k t + decMintSum ctx ks t := by
  simp [decMintSum]

/-- The scan of an appended list runs the first part and continues from its
final accumulators, propagating early returns and failures. -/
theorem scan_append (ctx : Ctx) (vs : List Address) (l1 l2 : List Key) (acc : Maps) :
    scan ctx vs (l1 ++ l2) acc =
      match scan ctx vs l1 acc with
      | ScanOut.done m => scan ctx vs l2 m
      | out => out := by
  induction l1 generalizing acc with
  | nil => rfl
  | cons k ks ih =>
      cases k with
      | balance token owner =>
          simp only [List.cons_append, scan]
          cases hb : balanceStep ctx acc (Key.balance token owner) token <;> simp [hb, ih]
      | minted token =>
          simp only [List.cons_append, scan]
          cases hb : mintStep ctx acc (Key.minted token) token <;>
            cases hv : is_valid_minter ctx token vs <;> simp [hb, hv, ih]
      | minter token =>
          simp only [List.cons_append, scan]
          cases hv : is_valid_minter ctx token vs <;> simp [hv, ih]
      | tokenParam token => simp [scan]
      | otherMultitoken s => simp [scan]
      | outside s => simp only [List.cons_append, scan]; exact ih acc

/-- The per-token check of the code equals the claim's formulation on plain
truncated differences. -/
theorem consCheck_eq_spec (ic dc im dm : Nat) :
    consCheck ic dc im dm =
      (if dc ≤ ic ∧ dm ≤ im then decide (ic - dc = im - dm)
       else if (ic < dc ∧ dm ≤ im) ∨ (dc ≤ ic ∧ im < dm) then false
       else decide (dc - ic = dm - im)) := by
  unfold consCheck Amount.checked_sub
  (repeat' split) <;> simp_all <;> omega

/-- Completing the scan accumulates, for every token, exactly the summed
per-key deltas on top of the starting accumulators, and collects exactly the
touched tokens. -/
theorem scan_done_spec (ctx : Ctx) (vs : List Address) :
    ∀ (ks : List Key) (acc m : Maps), scan ctx vs ks acc = ScanOut.done m →
      (∀ t, m.incChanges t = acc.incChanges t + incChangeSum ctx ks t ∧
            m.decChanges t = acc.decChanges t + decChangeSum ctx ks t ∧
            m.incMints t = acc.incMints t + incMintSum ctx ks t ∧
            m.decMints t = acc.decMints t + decMintSum ctx ks t) ∧
      (∀ t, t ∈ m.tokens ↔ t ∈ acc.tokens ∨ t ∈ tokensTouched ks) := by
  intro ks
  induction ks with
  | nil =>
      intro acc m h
      simp only [scan] at h
      injection h with h
      subst h
      refine ⟨fun t => ?_, fun t => ?_⟩
      · simp [incChangeSum, decChangeSum, incMintSum, decMintSum]
      · simp [tokensTouched]
  | cons k ks ih =>
      intro acc m h
      cases k with
      | balance token owner =>
          simp only [scan] at h
          cases hb : balanceStep ctx acc (Key.balance token owner) token with
          | none => simp [hb] at h
          | some acc2 =>
              simp only [hb] at h
              obtain ⟨ihv, iht⟩ := ih acc2 m h
              unfold balanceStep at hb
              split at hb
              next diff hsub =>
                split at hb
                next v hadd =>
                  injection hb with hb
                  subst hb
                  unfold Amount.checked_sub at hsub
                  split at hsub
                  next hle =>
                    injection hsub with hsub
                    unfold Amount.checked_add at hadd
                    split at hadd
                    next hbd =>
                      injection hadd with hadd
                      refine ⟨fun t => ?_, fun t => ?_⟩
                      · obtain ⟨i1, i2, i3, i4⟩ := ihv t
                        by_cases ht : t = token
                        · subst ht
                          simp only [i1, i2, i3, i4, incChangeSum_cons, decChangeSum_cons,
                            incMintSum_cons, decMintSum_cons, updMap, balInc, balDec,
                            mintInc, mintDec, if_pos rfl] at *
                          simp_all
                          omega
                        · have ht2 : ¬(token = t) := fun hx => ht hx.symm
                          simp only [i1, i2, i3, i4, incChangeSum_cons, decChangeSum_cons,
                            incMintSum_cons, decMintSum_cons, updMap, balInc, balDec,
                            mintInc, mintDec] at *
                          simp_all
                      · rw [iht t]
                        simp [tokensTouched, Key.touchedToken, List.mem_cons]
                        tauto
                    next hbd => simp at hadd
                  next hle => simp at hsub
                next hadd => simp at hb
              next hsub =>
                split at hb
                next v hadd =>
                  injection hb with hb
                  subst hb
                  unfold Amount.checked_sub at hsub
                  split at hsub
                  next hle => simp at hsub
                  next hle =>
                    unfold Amount.checked_add at hadd
                    split at hadd
                    next hbd =>
                      injection hadd with hadd
                      refine ⟨fun t => ?_, fun t => ?_⟩
                      · obtain ⟨i1, i2, i3, i4⟩ := ihv t
                        by_cases ht : t = token
                        · subst ht
                          simp only [i1, i2, i3, i4, incChangeSum_cons, decChangeSum_cons,
                            incMintSum_cons, decMintSum_cons, updMap, balInc, balDec,
                            mintInc, mintDec, if_pos rfl] at *
                          simp_all
                          omega
                        · have ht2 : ¬(token = t) := fun hx => ht hx.symm
                          simp only [i1, i2, i3, i4, incChangeSum_cons, decChangeSum_cons,
                            incMintSum_cons, decMintSum_cons, updMap, balInc, balDec,
                            mintInc, mintDec] at *
                          simp_all
                      · rw [iht t]
                        simp [tokensTouched, Key.touchedToken, List.mem_cons]
                        tauto
                    next hbd => simp at hadd
                next hadd => simp at hb
      | minted token =>
          simp only [scan] at h
          cases hb : mintStep ctx acc (Key.minted token) token with
          | none => simp [hb] at h
          | some acc2 =>
              simp only [hb] at h
              cases hv : is_valid_minter ctx token vs with
              | false => simp [hv] at h
              | true =>
                  simp only [hv, if_true] at h
                  obtain ⟨ihv, iht⟩ := ih acc2 m h
                  unfold mintStep at hb
                  split at hb
                  next diff hsub =>
                    split at hb
                    next v hadd =>
                      injection hb with hb
                      subst hb
                      unfold Amount.checked_sub at hsub
                      split at hsub
                      next hle =>
                        injection hsub with hsub
                        unfold Amount.checked_add at hadd
                        split at hadd
                        next hbd =>
                          injection hadd with hadd
                          refine ⟨fun t => ?_, fun t => ?_⟩
                          · obtain ⟨i1, i2, i3, i4⟩ := ihv t
                            by_cases ht : t = token
                            · subst ht
                              simp only [i1, i2, i3, i4, incChangeSum_cons, decChangeSum_cons,
                                incMintSum_cons, decMintSum_cons, updMap, balInc, balDec,
                                mintInc, mintDec, if_pos rfl] at *
                              simp_all
                              omega
                            · have ht2 : ¬(token = t) := fun hx => ht hx.symm
                              simp only [i1, i2, i3, i4, incChangeSum_cons, decChangeSum_cons,
                                incMintSum_cons, decMintSum_cons, updMap, balInc, balDec,
                                mintInc, mintDec] at *
                              simp_all
                          · rw [iht t]
                            simp [tokensTouched, Key.touchedToken, List.mem_cons]
                            tauto
                        next hbd => simp at hadd
                      next hle => simp at hsub
                    next hadd => simp at hb
                  next hsub =>
                    split at hb
                    next v hadd =>
                      injection hb with hb
                      subst hb
                      unfold Amount.checked_sub at hsub
                      split at hsub
                      next hle => simp at hsub
                      next hle =>
                        unfold Amount.checked_add at hadd
                        split at hadd
                        next hbd =>
                          injection hadd with hadd
                          refine ⟨fun t => ?_, fun t => ?_⟩
                          · obtain ⟨i1, i2, i3, i4⟩ := ihv t
                            by_cases ht : t = token
                            · subst ht
                              simp only [i1, i2, i3, i4, incChangeSum_cons, decChangeSum_cons,
                                incMintSum_cons, decMintSum_cons, updMap, balInc, balDec,
                                mintInc, mintDec, if_pos rfl] at *
                              simp_all
                              omega
                            · have ht2 : ¬(token = t) := fun hx => ht hx.symm
                              simp only [i1, i2, i3, i4, incChangeSum_cons, decChangeSum_cons,
                                incMintSum_cons, decMintSum_cons, updMap, balInc, balDec,
                                mintInc, mintDec] at *
                              simp_all
                          · rw [iht t]
                            simp [tokensTouched, Key.touchedToken, List.mem_cons]
                            tauto
                        next hbd => simp at hadd
                    next hadd => simp at hb
      | minter token =>
          simp only [scan] at h
          cases hv : is_valid_minter ctx token vs with
          | false => simp [hv] at h
          | true =>
              simp only [hv, if_true] at h
              obtain ⟨ihv, iht⟩ := ih acc m h
              refine ⟨fun t => ?_, fun t => ?_⟩
              · obtain ⟨i1, i2, i3, i4⟩ := ihv t
                simp [i1, i2, i3, i4, incChangeSum_cons, decChangeSum_cons,
                  incMintSum_cons, decMintSum_cons, balInc, balDec, mintInc, mintDec]
              · rw [iht t]
                simp [tokensTouched, Key.touchedToken]
      | tokenParam token => simp [scan] at h
      | otherMultitoken s => simp [scan] at h
      | outside s =>
          simp only [scan] at h
          obtain ⟨ihv, iht⟩ := ih acc m h
          refine ⟨fun t => ?_, fun t => ?_⟩
          · obtain ⟨i1, i2, i3, i4⟩ := ihv t
            simp [i1, i2, i3, i4, incChangeSum_cons, decChangeSum_cons,
              incMintSum_cons, decMintSum_cons, balInc, balDec, mintInc, mintDec]
          · rw [iht t]
            simp [tokensTouched, Key.touchedToken]

/-- C3: when `validate_tx` completes its scan of the changed keys without an
early return, it returns `Ok(true)` iff every token appearing in any of the
four accumulated maps (equivalently, every token touched by a balance or
minted-supply key; absent entries are zero) passes the three-way conservation
check on the summed per-key deltas, where each changed balance key contributes
`post - pre` to its token's increases when `post >= pre` and `pre - post` to
its decreases otherwise (accumulation is overflow-checked: an overflow is an
error, not a completed scan). -/
theorem multitoken_validate_tx_conservation (ctx : Ctx) (vs : List Address) (keys : List Key)
    (h : (scan ctx vs keys Maps.empty).completed = true) :
    validate_tx ctx keys vs = Except.ok true ↔
      ∀ T ∈ tokensTouched keys, tokenCheckSpec ctx keys T = true := by
  cases hs : scan ctx vs keys Maps.empty with
  | early b => rw [hs] at h; simp [ScanOut.completed] at h
  | fail => rw [hs] at h; simp [ScanOut.completed] at h
  | done m =>
      obtain ⟨hv, ht⟩ := scan_done_spec ctx vs keys Maps.empty m hs
      have hcc : ∀ T, conservationCheck m T = tokenCheckSpec ctx keys T := by
        intro T
        obtain ⟨i1, i2, i3, i4⟩ := hv T
        unfold conservationCheck
        rw [i1, i2, i3, i4]
        simp only [Maps.empty, Nat.zero_add]
        exact consCheck_eq_spec _ _ _ _
      unfold validate_tx
      rw [hs]
      constructor
      · intro hok T hT
        injection hok with hall
        rw [List.all_eq_true] at hall
        have hTm : T ∈ m.tokens := by
          rw [ht T]
          simp only [Maps.empty, List.not_mem_nil, false_or]
          exact hT
        rw [← hcc T]
        exact hall T hTm
      · intro hall
        have hallb : (m.tokens.all fun t => conservationCheck m t) = true := by
          rw [List.all_eq_true]
          intro T hTm
          rw [hcc T]
          apply hall
          have h2 := (ht T).mp hTm
          simpa [Maps.empty] using h2
        show Except.ok (m.tokens.all fun t => conservationCheck m t) = Except.ok true
        rw [hallb]

/-- C3 witness: a plain transfer of 10 units of one token between two accounts
completes the scan and validates. -/
theorem multitoken_validate_tx_conservation_witness :
    validate_tx
      ⟨fun k => if k = Key.balance (Address.established 9) (Address.established 0) then 100 else 0,
       fun k => if k = Key.balance (Address.established 9) (Address.established 0) then 90 else
                if k = Key.balance (Address.established 9) (Address.established 1) then 10 else 0,
       fun _ => none, false⟩
      [Key.balance (Address.established 9) (Address.established 0),
       Key.balance (Address.established 9) (Address.established 1)] [] = Except.ok true :=
  (multitoken_validate_tx_conservation
      ⟨fun k => if k = Key.balance (Address.established 9) (Address.established 0) then 100 else 0,
       fun k => if k = Key.balance (Address.established 9) (Address.established 0) then 90 else
                if k = Key.balance (Address.established 9) (Address.established 1) then 10 else 0,
       fun _ => none, false⟩
      []
      [Key.balance (Address.established 9) (Address.established 0),
       Key.balance (Address.established 9) (Address.established 1)]
      (by decide)).mpr (by decide)

/-- C6 counterexample: the changed keys hold a minted-supply key for a token
whose minter is invalid (`is_valid_minter` is `false`), yet `validate_tx`
returns `Ok(true)`: a token-parameter key scanned earlier (`BTreeSet`
iteration order; realized by a parameter key of a token sorting before the
minted key's token) short-circuits the whole scan into the governance check,
here accepted.  This refutes the claim that the presence of a minted-supply
key with an invalid minter forces `Ok(false)`. -/
theorem multitoken_minted_key_claim_cex :
    validate_tx ⟨fun _ => 0, fun _ => 0, fun _ => none, true⟩
        [Key.tokenParam (Address.ibcToken 0), Key.minted (Address.ibcToken 1)] []
      = Except.ok true ∧
    is_valid_minter ⟨fun _ => 0, fun _ => 0, fun _ => none, true⟩ (Address.ibcToken 1) []
      = false :=
  ⟨rfl, rfl⟩

/-- C6 (amended): if the scan reaches a minted-supply key for token `T` (all
earlier keys processed without an early return or error) and the
overflow-checked accumulation of that key's delta succeeds, then `validate_tx`
returns `Ok(false)` unless `is_valid_minter(T, verifiers)` holds at that
point; and `is_valid_minter(token, verifiers)` returns `Ok(true)` iff `token`
is an IBC-originated token whose post-state minter equals the internal IBC
address and that address is in `verifiers` (`Ok(false)` for every non-IBC
token). -/
theorem multitoken_minted_key_requires_valid_minter :
    (∀ (ctx : Ctx) (vs : List Address) (l1 l2 : List Key) (T : Address),
      (scan ctx vs l1 Maps.empty).completed = true →
      (scan ctx vs (l1 ++ [Key.minted T]) Maps.empty).failed = false →
      is_valid_minter ctx T vs = false →
      validate_tx ctx (l1 ++ Key.minted T :: l2) vs = Except.ok false) ∧
    (∀ (ctx : Ctx) (T : Address) (vs : List Address),
      is_valid_minter ctx T vs = true ↔
        (∃ n, T = Address.ibcToken n) ∧ ctx.postMinter T = some Address.ibc ∧
          Address.ibc ∈ vs) := by
  constructor
  · intro ctx vs l1 l2 T hdone hnf hm
    cases hs : scan ctx vs l1 Maps.empty with
    | early b => rw [hs] at hdone; simp [ScanOut.completed] at hdone
    | fail => rw [hs] at hdone; simp [ScanOut.completed] at hdone
    | done m =>
        unfold validate_tx
        rw [scan_append ctx vs l1 (Key.minted T :: l2) Maps.empty, hs]
        simp only [scan]
        cases hb : mintStep ctx m (Key.minted T) T with
        | none =>
            exfalso
            rw [scan_append ctx vs l1 [Key.minted T] Maps.empty, hs] at hnf
            simp [scan, hb, ScanOut.failed] at hnf
        | some acc2 => simp [hb, hm]
  · intro ctx T vs
    constructor
    · intro h
      unfold is_valid_minter at h
      cases T with
      | ibcToken n =>
          cases hp : ctx.postMinter (Address.ibcToken n) with
          | none => rw [hp] at h; simp at h
          | some mi =>
              rw [hp] at h
              by_cases hmi : mi = Address.ibc
              · subst hmi
                simp only [if_pos rfl] at h
                exact ⟨⟨n, rfl⟩, rfl, of_decide_eq_true h⟩
              · simp [hmi] at h
      | established n => simp at h
      | ibc => simp at h
      | multitoken => simp at h
      | otherInternal n => simp at h
    · rintro ⟨⟨n, rfl⟩, hp, hin⟩
      unfold is_valid_minter
      rw [hp]
      simp [hin]

/-- C6 witness: with no earlier keys, a minted-supply key for an IBC token
with no recorded minter yields `Ok(false)`; and a recorded IBC minter listed
in the verifiers makes `is_valid_minter` return `true`. -/
theorem multitoken_minted_key_requires_valid_minter_witness :
    validate_tx ⟨fun _ => 0, fun _ => 0, fun _ => none, false⟩
        [Key.minted (Address.ibcToken 0)] [] = Except.ok false ∧
    is_valid_minter ⟨fun _ => 0, fun _ => 0, fun _ => some Address.ibc, false⟩
        (Address.ibcToken 0) [Address.ibc] = true :=
  ⟨multitoken_minted_key_requires_valid_minter.1
      ⟨fun _ => 0, fun _ => 0, fun _ => none, false⟩ [] [] [] (Address.ibcToken 0)
      (by decide) (by decide) (by decide),
   (multitoken_minted_key_requires_valid_minter.2
      ⟨fun _ => 0, fun _ => 0, fun _ => some Address.ibc, false⟩ (Address.ibcToken 0)
      [Address.ibc]).mpr ⟨⟨0, rfl⟩, rfl, by decide⟩⟩

/-- C9 counterexample: the changed keys contain an unrecognized key under the
Multitoken namespace, yet `validate_tx` does not return `Ok(false)`: two
balance keys scanned earlier overflow the checked accumulation, so the call
returns the overflow error instead.  (In `BTreeSet` order, balance keys of a
token sort before an unrecognized trailing segment.) -/
theorem multitoken_unrecognized_key_claim_cex :
    validate_tx ⟨fun _ => 0, fun _ => AMOUNT_MAX, fun _ => none, false⟩
        [Key.balance (Address.established 9) (Address.established 0),
         Key.balance (Address.established 9) (Address.established 1),
         Key.otherMultitoken 0] []
      = Except.error MtError.overflow :=
  rfl

/-- C9 (amended): if the scan reaches an unrecognized key under the Multitoken
namespace (all earlier keys processed without an early return or error),
`validate_tx` returns `Ok(false)` regardless of the remaining keys. -/
theorem multitoken_unrecognized_key_rejects (ctx : Ctx) (vs : List Address)
    (l1 l2 : List Key) (s : Nat)
    (h : (scan ctx vs l1 Maps.empty).completed = true) :
    validate_tx ctx (l1 ++ Key.otherMultitoken s :: l2) vs = Except.ok false := by
  cases hs : scan ctx vs l1 Maps.empty with
  | early b => rw [hs] at h; simp [ScanOut.completed] at h
  | fail => rw [hs] at h; simp [ScanOut.completed] at h
  | done m =>
      unfold validate_tx
      rw [scan_append ctx vs l1 (Key.otherMultitoken s :: l2) Maps.empty, hs]
      simp [scan]

/-- C9 witness: an unrecognized Multitoken-namespace key alone is rejected. -/
theorem multitoken_unrecognized_key_rejects_witness :
    validate_tx ⟨fun _ => 0, fun _ => 0, fun _ => none, true⟩
        [Key.otherMultitoken 7] [] = Except.ok false :=
  multitoken_unrecognized_key_rejects ⟨fun _ => 0, fun _ => 0, fun _ => none, true⟩
    [] [] [] 7 (by decide)
